import Mathlib

/-!
Formal model of the signal-generation core of the MscAPAssignment3 synthesiser
(source files MyDelay.h, MyLfo.h, MyAmp.h, MyNoiseGenerator.h, MySynth.h and
the parameter declarations in MyParameters.h).

Modelling conventions:
* C++ float arithmetic is modelled as exact arithmetic over the rationals
  (over the reals for the LFO, whose sine wave needs Real.sin).
* C++ arrays are modelled as total functions from the index type; the C++
  integer remainder operator on int is Int.tmod (truncated remainder).
* JUCE library components that the repository only calls (juce::ADSR,
  juce::SmoothedValue, juce::Random, juce::IIRFilter, the oscillator and
  filter classes that the spec declares external) are abstracted: an ADSR is
  an opaque state type with its transition functions passed as parameters, a
  smoothed delay-time stream is passed as a per-sample sequence, and the
  per-sample source signal of a voice is passed as a sequence as well.
* Audio buffers are functions from channel number and sample index to the
  sample value.
-/

set_option maxHeartbeats 1000000

/-- State owned by one delay engine instance (fields of class MyDelay and of
class MyPingPongDelay in MyDelay.h: the two circular buffers, their size, the
shared write index and the empty-buffers flag). -/
structure DelayState where
  bufferSize : ℤ
  leftBuffer : ℤ → ℚ
  rightBuffer : ℤ → ℚ
  currentIndex : ℤ
  emptyBuffers : Bool

/-- The user parameters read by class MyDelay (from MyParameters.h). -/
structure DelayParams where
  delayOn : Bool
  delayDryLevel : ℚ
  delayWetLevel : ℚ
  delayFeedback : ℚ

/-- The user parameters read by class MyPingPongDelay: the shared delay
parameters plus the depth. -/
structure PingPongParams where
  delayOn : Bool
  delayDryLevel : ℚ
  delayWetLevel : ℚ
  delayFeedback : ℚ
  delayDepth : ℚ

/-- Pointwise update of an audio buffer at one channel and one sample index. -/
def writeSample (audio : ℕ → ℕ → ℚ) (chan idx : ℕ) (v : ℚ) : ℕ → ℕ → ℚ :=
  fun c m => if c = chan ∧ m = idx then v else audio c m

namespace MyDelay

/-- MyDelay::applyDelay (MyDelay.h lines 269-285): processes one channel of
one sample. Returns the new value of channel[sampleIndex] together with the
updated delay buffer. -/
def applyDelay (p : DelayParams) (bufferSize currentIndex : ℤ)
    (buffer : ℤ → ℚ) (originalSample delaySamples : ℚ) : ℚ × (ℤ → ℚ) :=
  let sampleDelay : ℤ := ⌊delaySamples⌋
  let decimal : ℚ := delaySamples - (sampleDelay : ℚ)
  let rightIndex : ℤ := ((currentIndex - sampleDelay) + bufferSize).tmod bufferSize
  let leftIndex : ℤ := (rightIndex - 1 + bufferSize).tmod bufferSize
  let delayedSample : ℚ := ((1 - decimal) * buffer leftIndex) + (decimal * buffer rightIndex)
  let newSample : ℚ := (p.delayDryLevel * originalSample) + (p.delayWetLevel * delayedSample)
  let newBuffer : ℤ → ℚ :=
    fun j => if j = currentIndex then originalSample + (p.delayFeedback * delayedSample) else buffer j
  (newSample, newBuffer)

/-- MyDelay::incrementCurrentIndex (MyDelay.h lines 292-295). -/
def incrementCurrentIndex (bufferSize currentIndex : ℤ) : ℤ :=
  (currentIndex + 1).tmod bufferSize

/-- One iteration of the sample loop in MyDelay::apply (MyDelay.h lines
241-252): the left channel is processed, then the right channel when
available, both against the same write index, and only then is the write
index advanced. -/
def stepSample (p : DelayParams) (rightChannelAvailable : Bool) (delaySamples : ℚ)
    (i : ℕ) (audio : ℕ → ℕ → ℚ) (st : DelayState) : (ℕ → ℕ → ℚ) × DelayState :=
  let resL := applyDelay p st.bufferSize st.currentIndex st.leftBuffer (audio 0 i) delaySamples
  let audioL := writeSample audio 0 i resL.1
  if rightChannelAvailable then
    let resR := applyDelay p st.bufferSize st.currentIndex st.rightBuffer (audio 1 i) delaySamples
    let audioR := writeSample audioL 1 i resR.1
    (audioR, { st with
      leftBuffer := resL.2
      rightBuffer := resR.2
      currentIndex := incrementCurrentIndex st.bufferSize st.currentIndex })
  else
    (audioL, { st with
      leftBuffer := resL.2
      currentIndex := incrementCurrentIndex st.bufferSize st.currentIndex })

/-- The sample loop of MyDelay::apply, with the stream of smoothed delay
distances (juce::SmoothedValue::getNextValue) abstracted as the sequence
delaySeq. The first argument of the recursion is the current sample index,
the second the number of samples still to process. -/
def processSamples (p : DelayParams) (rightChannelAvailable : Bool) (delaySeq : ℕ → ℚ) :
    ℕ → ℕ → (ℕ → ℕ → ℚ) → DelayState → (ℕ → ℕ → ℚ) × DelayState
  | _, 0, audio, st => (audio, st)
  | i, Nat.succ r, audio, st =>
    let res := stepSample p rightChannelAvailable (delaySeq i) i audio st
    processSamples p rightChannelAvailable delaySeq (i + 1) r res.1 res.2

/-- MyDelay::clearBuffers (MyDelay.h lines 316-325). -/
def clearBuffers (st : DelayState) : DelayState :=
  { st with
    leftBuffer := fun _ => 0
    rightBuffer := fun _ => 0
    currentIndex := 0
    emptyBuffers := true }

/-- MyDelay::apply (MyDelay.h lines 218-253): bypass handling and the sample
loop. The audio buffer is returned unchanged when the effect is off. -/
def apply (p : DelayParams) (delaySeq : ℕ → ℚ) (numSamples numChannels : ℕ)
    (audio : ℕ → ℕ → ℚ) (st : DelayState) : (ℕ → ℕ → ℚ) × DelayState :=
  if ! p.delayOn then
    (audio, if ! st.emptyBuffers then clearBuffers st else st)
  else
    processSamples p (decide (1 < numChannels)) delaySeq 0 numSamples audio
      { st with emptyBuffers := false }

/-- MyDelay::resetBuffers sizing (MyDelay.h line 299): capacity factor 2. -/
def bufferSizeFor (sampleRate : ℚ) : ℤ :=
  ⌈2 * sampleRate⌉ + 1

end MyDelay

namespace MyPingPongDelay

/-- MyPingPongDelay::getInterpolatedDelayedSample (MyDelay.h lines 139-151). -/
def getInterpolatedDelayedSample (bufferSize currentIndex : ℤ) (buffer : ℤ → ℚ)
    (exactDelayInSamples : ℚ) : ℚ :=
  let delayInSamplesInt : ℤ := ⌊exactDelayInSamples⌋
  let delayInSamplesDecimal : ℚ := exactDelayInSamples - (delayInSamplesInt : ℚ)
  let rightIndex : ℤ := ((currentIndex - delayInSamplesInt) + bufferSize).tmod bufferSize
  let leftIndex : ℤ := (rightIndex - 1 + bufferSize).tmod bufferSize
  ((1 - delayInSamplesDecimal) * buffer leftIndex) + (delayInSamplesDecimal * buffer rightIndex)

/-- One iteration of the sample loop in MyPingPongDelay::apply (MyDelay.h
lines 80-121). -/
def stepSample (p : PingPongParams) (rightChannelAvailable : Bool)
    (exactDelayInSamples : ℚ) (sampleIndex : ℕ) (audio : ℕ → ℕ → ℚ) (st : DelayState) :
    (ℕ → ℕ → ℚ) × DelayState :=
  let originalLeftSample := audio 0 sampleIndex
  let originalRightSample := audio 1 sampleIndex
  let originalSample :=
    if rightChannelAvailable then (originalLeftSample + originalRightSample) / 2
    else originalLeftSample
  let delayedLeftSample :=
    getInterpolatedDelayedSample st.bufferSize st.currentIndex st.leftBuffer exactDelayInSamples
  let delayedRightSample :=
    getInterpolatedDelayedSample st.bufferSize st.currentIndex st.rightBuffer
      (2 * exactDelayInSamples)
  let newLeftBuffer : ℤ → ℚ :=
    fun j => if j = st.currentIndex then originalSample + (p.delayFeedback * delayedLeftSample)
             else st.leftBuffer j
  let newRightBuffer : ℤ → ℚ :=
    fun j => if j = st.currentIndex then originalSample + ((p.delayFeedback / 2) * delayedRightSample)
             else st.rightBuffer j
  let sameChannelGain := p.delayDepth
  let otherChannelGain := 1 - sameChannelGain
  let leveledDelayedLeftSample := p.delayWetLevel * delayedLeftSample
  let leveledDelayedRightSample := p.delayWetLevel * delayedRightSample
  let outLeft := (p.delayDryLevel * originalLeftSample)
    + (sameChannelGain * leveledDelayedLeftSample)
    + (otherChannelGain * leveledDelayedRightSample)
  let audioL := writeSample audio 0 sampleIndex outLeft
  let audioR :=
    if rightChannelAvailable then
      writeSample audioL 1 sampleIndex
        ((p.delayDryLevel * originalRightSample)
          + (sameChannelGain * leveledDelayedRightSample)
          + (otherChannelGain * leveledDelayedLeftSample))
    else audioL
  (audioR, { st with
    leftBuffer := newLeftBuffer
    rightBuffer := newRightBuffer
    currentIndex := MyDelay.incrementCurrentIndex st.bufferSize st.currentIndex })

/-- The sample loop of MyPingPongDelay::apply, smoothed delay distances
abstracted as a sequence. -/
def processSamples (p : PingPongParams) (rightChannelAvailable : Bool) (delaySeq : ℕ → ℚ) :
    ℕ → ℕ → (ℕ → ℕ → ℚ) → DelayState → (ℕ → ℕ → ℚ) × DelayState
  | _, 0, audio, st => (audio, st)
  | i, Nat.succ r, audio, st =>
    let res := stepSample p rightChannelAvailable (delaySeq i) i audio st
    processSamples p rightChannelAvailable delaySeq (i + 1) r res.1 res.2

/-- MyPingPongDelay::clearBuffers (MyDelay.h lines 184-193). -/
def clearBuffers (st : DelayState) : DelayState :=
  { st with
    leftBuffer := fun _ => 0
    rightBuffer := fun _ => 0
    currentIndex := 0
    emptyBuffers := true }

/-- MyPingPongDelay::apply (MyDelay.h lines 57-122): bypass handling and the
sample loop. -/
def apply (p : PingPongParams) (delaySeq : ℕ → ℚ) (numSamples numChannels : ℕ)
    (audio : ℕ → ℕ → ℚ) (st : DelayState) : (ℕ → ℕ → ℚ) × DelayState :=
  if ! p.delayOn then
    (audio, if ! st.emptyBuffers then clearBuffers st else st)
  else
    processSamples p (decide (1 < numChannels)) delaySeq 0 numSamples audio
      { st with emptyBuffers := false }

/-- MyPingPongDelay::resetBuffers sizing (MyDelay.h line 167): capacity
factor 4. -/
def bufferSizeFor (sampleRate : ℚ) : ℤ :=
  ⌈4 * sampleRate⌉ + 1

end MyPingPongDelay

/-- The user parameters read by class MyLfo (declared in MyParameters.h, in
source order: lfo_on, lfo_type, lfo_applies_to, lfo_frequency, lfo_depth).
The two choice selectors are modelled as integers, matching the int
conversion the source performs on them. -/
structure LfoParams where
  lfoOn : Bool
  lfoType : ℤ
  lfoAppliesTo : ℤ
  lfoFrequency : ℝ
  lfoDepth : ℝ

/-- The mutable oscillator state of class MyLfo: phase and phaseDelta. -/
structure LfoState where
  phase : ℝ
  phaseDelta : ℝ

namespace MyLfo

/-- The constant pi2 of MyLfo.h line 100. -/
noncomputable def pi2 : ℝ := 2 * Real.pi

/-- MyLfo::getNextPhase (MyLfo.h lines 142-152): advances the phase by
phaseDelta and wraps it at 1. Returns the new phase with the new state. -/
noncomputable def getNextPhase (st : LfoState) : ℝ × LfoState :=
  let phase := st.phase + st.phaseDelta
  let phase := if phase > 1 then phase - 1 else phase
  (phase, { st with phase := phase })

/-- MyLfo::updatePhaseDelta (MyLfo.h lines 154-157). -/
noncomputable def updatePhaseDelta (frequency sampleRate : ℝ) : ℝ :=
  frequency / sampleRate

/-- MyLfo::getNextSampleSine (MyLfo.h lines 110-113). -/
noncomputable def getNextSampleSine (st : LfoState) : ℝ × LfoState :=
  let res := getNextPhase st
  (Real.sin (pi2 * res.1), res.2)

/-- MyLfo::getNextSampleTriangle (MyLfo.h lines 115-118). -/
noncomputable def getNextSampleTriangle (st : LfoState) : ℝ × LfoState :=
  let res := getNextPhase st
  ((|res.1 - 0.5| * 4) - 1, res.2)

/-- MyLfo::getNextSampleSquare (MyLfo.h lines 120-130). -/
noncomputable def getNextSampleSquare (st : LfoState) : ℝ × LfoState :=
  let res := getNextPhase st
  (if res.1 < 0.5 then -1 else 1, res.2)

/-- MyLfo::getNextSampleSaw (MyLfo.h lines 132-135). -/
noncomputable def getNextSampleSaw (st : LfoState) : ℝ × LfoState :=
  let res := getNextPhase st
  ((res.1 * 2) - 1, res.2)

/-- MyLfo::getNextSampleInvertedSaw (MyLfo.h lines 137-140). -/
noncomputable def getNextSampleInvertedSaw (st : LfoState) : ℝ × LfoState :=
  let res := getNextSampleSaw st
  (-res.1, res.2)

/-- MyLfo::getNextSample (MyLfo.h lines 51-76): dispatch on the waveform
selector, with the depth applied to the produced sample. Selectors outside
0..4 fall back to the triangle, as in the default of the source switch. -/
noncomputable def getNextSample (p : LfoParams) (st : LfoState) : ℝ × LfoState :=
  let res :=
    if p.lfoType = 0 then getNextSampleSine st
    else if p.lfoType = 1 then getNextSampleTriangle st
    else if p.lfoType = 2 then getNextSampleSquare st
    else if p.lfoType = 3 then getNextSampleSaw st
    else if p.lfoType = 4 then getNextSampleInvertedSaw st
    else getNextSampleTriangle st
  (p.lfoDepth * res.1, res.2)

/-- MyLfo::appliesTo, single-index overload (MyLfo.h line 102). -/
def appliesTo (p : LfoParams) (index : ℤ) : Bool :=
  p.lfoOn && decide (p.lfoAppliesTo = index)

/-- MyLfo::appliesTo, two-index overload (MyLfo.h lines 104-108). -/
def appliesToEither (p : LfoParams) (index1 index2 : ℤ) : Bool :=
  p.lfoOn && (decide (p.lfoAppliesTo = index1) || decide (p.lfoAppliesTo = index2))

/-- MyLfo::appliesToOsc1Frequency (MyLfo.h line 78). -/
def appliesToOsc1Frequency (p : LfoParams) : Bool := appliesToEither p 0 4

/-- MyLfo::appliesToOsc1Cents (MyLfo.h line 80). -/
def appliesToOsc1Cents (p : LfoParams) : Bool := appliesToEither p 1 5

/-- MyLfo::appliesToOsc2Frequency (MyLfo.h line 82). -/
def appliesToOsc2Frequency (p : LfoParams) : Bool := appliesToEither p 2 4

/-- MyLfo::appliesToOsc2Cents (MyLfo.h line 84). -/
def appliesToOsc2Cents (p : LfoParams) : Bool := appliesToEither p 3 5

/-- MyLfo::appliesToFilterFrequency (MyLfo.h line 86). -/
def appliesToFilterFrequency (p : LfoParams) : Bool := appliesTo p 6

/-- MyLfo::appliesToFilterQ (MyLfo.h line 88). -/
def appliesToFilterQ (p : LfoParams) : Bool := appliesTo p 7

/-- MyLfo::appliesToAmpVolume (MyLfo.h line 90). -/
def appliesToAmpVolume (p : LfoParams) : Bool := appliesTo p 8

/-- MyLfo::appliesToAmpDistortion (MyLfo.h line 92). -/
def appliesToAmpDistortion (p : LfoParams) : Bool := appliesTo p 9

end MyLfo

namespace MyParameters

/-- Declared range of the lfo_depth parameter (MyParameters.h: a float
parameter with minimum 0, maximum 1 and default 0.5). -/
def lfoDepthRange : ℚ × ℚ := (0, 1)

/-- Declared maximum of the noise_duration parameter (MyParameters.h: a
skewed float parameter over 0..100). -/
def noiseDurationMax : ℚ := 100

end MyParameters

/-- The user parameters read by class MyAmp that matter to its per-sample
output path (MyAmp.h): the distortion switch and gain and the master
volume. The four envelope time parameters only feed the external juce ADSR
and stay inside the abstracted envelope. -/
structure AmpParams where
  ampDistOn : Bool
  ampDistGain : ℚ
  ampVolume : ℚ

/-- State owned by one MyAmp instance: the external juce ADSR envelope
(opaque state of type E), the per-note velocity gain and the cached envelope
value envVal used by isClosed (MyAmp.h lines 124-129). -/
structure MyAmpState (E : Type) where
  env : E
  velocityGain : ℚ
  envVal : ℚ

namespace MyAmp

/-- Freshly constructed MyAmp: envVal is initialised to 0 (MyAmp.h line
129); velocityGain is left uninitialised in the source, so it is an
arbitrary value here, and the envelope starts in some state env0. -/
def init {E : Type} (env0 : E) (velocityGain0 : ℚ) : MyAmpState E :=
  { env := env0, velocityGain := velocityGain0, envVal := 0 }

/-- MyAmp::startNote (MyAmp.h lines 50-56): resets and triggers the
envelope (abstract juce ADSR transitions adsrReset and adsrNoteOn) and
stores the velocity. The cached envVal is not touched. -/
def startNote {E : Type} (adsrReset adsrNoteOn : E → E) (velocity : ℚ)
    (st : MyAmpState E) : MyAmpState E :=
  { st with
    env := adsrNoteOn (adsrReset st.env)
    velocityGain := velocity }

/-- MyAmp::stopNote (MyAmp.h lines 58-61). -/
def stopNote {E : Type} (adsrNoteOff : E → E) (st : MyAmpState E) : MyAmpState E :=
  { st with env := adsrNoteOff st.env }

/-- MyAmp::isClosed (MyAmp.h lines 63-66): envVal below 0.000001. -/
def isClosed {E : Type} (st : MyAmpState E) : Bool :=
  decide (st.envVal < 1 / 1000000)

/-- MyAmp::getAmpDist (MyAmp.h lines 82-94). The applyLfo argument is a
bool at every call site. -/
def getAmpDist (p : AmpParams) (applyLfo : Bool) (lfoSample : ℚ) : ℚ :=
  if applyLfo then max 0 (p.ampDistGain + (lfoSample * p.ampDistGain)) else p.ampDistGain

/-- MyAmp::getAmpVolume (MyAmp.h lines 96-109). -/
def getAmpVolume (p : AmpParams) (applyLfo : Bool) (lfoSample : ℚ) : ℚ :=
  if applyLfo then max 0 (min 1 (p.ampVolume + (lfoSample * p.ampVolume))) else p.ampVolume

/-- MyAmp::apply (MyAmp.h lines 68-80): advances the envelope (abstract
juce ADSR step adsrNext, which yields the next envelope value and the next
envelope state), caches the envelope value, applies velocity and envelope,
optionally the tanh distortion (the C library tanh is the abstract function
tanhFn), and finally the output volume. -/
def apply {E : Type} (adsrNext : E → ℚ × E) (tanhFn : ℚ → ℚ) (p : AmpParams)
    (sample : ℚ) (applyLfoToAmpVolume applyLfoToAmpDist : Bool) (lfoSample : ℚ)
    (st : MyAmpState E) : ℚ × MyAmpState E :=
  let stepEnv := adsrNext st.env
  let envVal := stepEnv.1
  let envSample := st.velocityGain * (envVal * sample)
  let distSample :=
    if p.ampDistOn then tanhFn (getAmpDist p applyLfoToAmpDist lfoSample * envSample)
    else envSample
  (getAmpVolume p applyLfoToAmpVolume lfoSample * distSample,
   { st with
     env := stepEnv.2
     envVal := envVal })

end MyAmp

/-- The juce::ADSR::Parameters struct set up by MyNoiseGenerator. -/
structure AdsrParameters where
  attack : ℚ
  decay : ℚ
  sustain : ℚ
  release : ℚ

namespace MyNoiseGenerator

/-- Constructor body of MyNoiseGenerator (MyNoiseGenerator.h lines 27-34):
attack, sustain and release of the envelope parameter struct are fixed;
decay is left as it was default-constructed, to be set by updateParams. -/
def initEnvParams (defaults : AdsrParameters) : AdsrParameters :=
  { defaults with
    attack := 1 / 100
    sustain := 0
    release := 1 / 100 }

/-- Envelope part of MyNoiseGenerator::updateParams (MyNoiseGenerator.h
lines 65-71): the decay is the noise duration parameter, with the maximum
duration value 100 mapped to 10000. -/
def updateEnvParams (noiseDurationVal : ℚ) (envParams : AdsrParameters) : AdsrParameters :=
  { envParams with decay := if noiseDurationVal = 100 then 10000 else noiseDurationVal }

/-- Filter cutoff computed by MyNoiseGenerator::updateParams
(MyNoiseGenerator.h line 62). -/
def noiseFilterFreq (noiseFilterVal : ℚ) : ℚ :=
  (noiseFilterVal * 5000) + 20

end MyNoiseGenerator

/-- Per-note state of MySynthVoice (MySynth.h lines 198-207) that the render
loop touches: the playing and ending flags and the amp stage. The oscillator
pair, noise generator, filter and LFO feeding the amp are abstracted into
the per-sample source sequence given to the render functions. -/
structure VoiceState (E : Type) where
  playing : Bool
  ending : Bool
  amp : MyAmpState E

namespace MySynthVoice

/-- One iteration of the sample loop of MySynthVoice::renderNextBlock
(MySynth.h lines 144-174): the amp output for this sample is added to every
channel of the output buffer, then the voice is cleared the moment the amp
envelope is closed while the note is ending. filteredSeq abstracts the
filtered sum of the two oscillators and the noise generator at each sample
index; lfoSeq abstracts the LFO sample stream. -/
def renderStep {E : Type} (adsrNext : E → ℚ × E) (tanhFn : ℚ → ℚ) (p : AmpParams)
    (applyLfoToAmpVolume applyLfoToAmpDist : Bool) (lfoSeq filteredSeq : ℕ → ℚ)
    (numChannels sampleIndex : ℕ) (st : VoiceState E) (audio : ℕ → ℕ → ℚ) :
    VoiceState E × (ℕ → ℕ → ℚ) :=
  let res := MyAmp.apply adsrNext tanhFn p (filteredSeq sampleIndex)
    applyLfoToAmpVolume applyLfoToAmpDist (lfoSeq sampleIndex) st.amp
  let audioOut : ℕ → ℕ → ℚ :=
    fun c m => if c < numChannels ∧ m = sampleIndex then audio c m + res.1 else audio c m
  let st1 : VoiceState E := { st with amp := res.2 }
  if st1.ending && MyAmp.isClosed res.2 then
    ({ st1 with
       playing := false
       ending := false }, audioOut)
  else
    (st1, audioOut)

/-- The sample loop of MySynthVoice::renderNextBlock: the first argument of
the recursion is the current sample index, the second the number of samples
still to process. The loop runs to the end of the block even when the voice
is cleared at some sample inside it. -/
def renderLoop {E : Type} (adsrNext : E → ℚ × E) (tanhFn : ℚ → ℚ) (p : AmpParams)
    (applyLfoToAmpVolume applyLfoToAmpDist : Bool) (lfoSeq filteredSeq : ℕ → ℚ)
    (numChannels : ℕ) :
    ℕ → ℕ → VoiceState E → (ℕ → ℕ → ℚ) → VoiceState E × (ℕ → ℕ → ℚ)
  | _, 0, st, audio => (st, audio)
  | i, Nat.succ r, st, audio =>
    let res := renderStep adsrNext tanhFn p applyLfoToAmpVolume applyLfoToAmpDist
      lfoSeq filteredSeq numChannels i st audio
    renderLoop adsrNext tanhFn p applyLfoToAmpVolume applyLfoToAmpDist
      lfoSeq filteredSeq numChannels (i + 1) r res.1 res.2

/-- MySynthVoice::renderNextBlock (MySynth.h lines 135-176): nothing happens
unless the voice is playing when the block starts. -/
def renderBlock {E : Type} (adsrNext : E → ℚ × E) (tanhFn : ℚ → ℚ) (p : AmpParams)
    (applyLfoToAmpVolume applyLfoToAmpDist : Bool) (lfoSeq filteredSeq : ℕ → ℚ)
    (numChannels startSample numSamples : ℕ) (st : VoiceState E) (audio : ℕ → ℕ → ℚ) :
    VoiceState E × (ℕ → ℕ → ℚ) :=
  if st.playing then
    renderLoop adsrNext tanhFn p applyLfoToAmpVolume applyLfoToAmpDist
      lfoSeq filteredSeq numChannels startSample numSamples st audio
  else
    (st, audio)

end MySynthVoice

/-- Modelled from the claim wording for comparison with the source: clamp of
a value to an interval. -/
def specClamp (x lo hi : ℚ) : ℚ :=
  max lo (min x hi)

/-- Modelled from the claim wording for comparison with the source: the
effective output volume of the amplifier stage, clamp(volumeParam·(1 +
lfoSample), 0, 1) when the amp-volume route is active, the unmodified
volumeParam otherwise. -/
def specEffectiveVolume (volumeParam lfoSample : ℚ) (routeActive : Bool) : ℚ :=
  if routeActive then specClamp (volumeParam * (1 + lfoSample)) 0 1 else volumeParam

/-- C4: the routing query appliesToOsc1Frequency returns true exactly when
the LFO is enabled and the destination selector is 0 or 4, and returns
false whenever the LFO is disabled, for every selector value. -/
theorem c4_applies_to_osc1_frequency (enabled : Bool) (selector waveType : ℤ)
    (freq depth : ℝ) :
    (MyLfo.appliesToOsc1Frequency ⟨enabled, waveType, selector, freq, depth⟩ = true
      ↔ enabled = true ∧ (selector = 0 ∨ selector = 4))
    ∧ MyLfo.appliesToOsc1Frequency ⟨false, waveType, selector, freq, depth⟩ = false := by
  constructor
  · simp [MyLfo.appliesToOsc1Frequency, MyLfo.appliesToEither]
  · simp [MyLfo.appliesToOsc1Frequency, MyLfo.appliesToEither]

/-- C10: startNote leaves the cached envelope value untouched, so isClosed
reports the value cached before the new note began; in particular isClosed
is true for a freshly constructed amp stage, both before and after a
startNote on it. -/
theorem c10_start_note_keeps_is_closed {E : Type} (adsrReset adsrNoteOn : E → E)
    (velocity : ℚ) (st : MyAmpState E) (env0 : E) (velocityGain0 : ℚ) :
    (MyAmp.startNote adsrReset adsrNoteOn velocity st).envVal = st.envVal
    ∧ MyAmp.isClosed (MyAmp.startNote adsrReset adsrNoteOn velocity st) = MyAmp.isClosed st
    ∧ MyAmp.isClosed (MyAmp.init env0 velocityGain0) = true
    ∧ MyAmp.isClosed
        (MyAmp.startNote adsrReset adsrNoteOn velocity (MyAmp.init env0 velocityGain0)) = true := by
  refine ⟨rfl, rfl, ?_, ?_⟩ <;>
    simp [MyAmp.isClosed, MyAmp.init, MyAmp.startNote]

/-- C6: with distortion disabled, the amplifier output is the exact linear
scale velocity * envelopeValue * input * effectiveVolume, where
effectiveVolume is clamp(volumeParam * (1 + lfoSample), 0, 1) when the
amp-volume route is active and the unmodified volumeParam otherwise; the
abstract tanh stays unused, so no nonlinearity is applied. -/
theorem c6_amp_linear_when_distortion_off {E : Type} (adsrNext : E → ℚ × E)
    (tanhFn : ℚ → ℚ) (distGain volumeParam sample lfoSample : ℚ)
    (routeVolume routeDist : Bool) (env0 : E) (velocityGain envVal0 : ℚ) :
    (MyAmp.apply adsrNext tanhFn ⟨false, distGain, volumeParam⟩ sample
        routeVolume routeDist lfoSample ⟨env0, velocityGain, envVal0⟩).1
      = velocityGain * (adsrNext env0).1 * sample
          * specEffectiveVolume volumeParam lfoSample routeVolume := by
  cases routeVolume
  · simp [MyAmp.apply, MyAmp.getAmpVolume, specEffectiveVolume]
    ring
  · simp only [MyAmp.apply, MyAmp.getAmpVolume, specEffectiveVolume, specClamp,
      if_true, Bool.false_eq_true, if_false]
    rw [show volumeParam + lfoSample * volumeParam = volumeParam * (1 + lfoSample) by ring,
      min_comm]
    ring

/-- C7 counterexample: updateEnvParams changes only the decay; at two
different concrete duration parameter values the resulting sustain is the
fixed 0 installed by the constructor, even when the default-constructed
juce parameter struct carried sustain 1, so the sustain is not
parameter-driven and is not recomputed by updateParams. -/
theorem c7_counterexample :
    MyNoiseGenerator.updateEnvParams 42
        (MyNoiseGenerator.initEnvParams ⟨1/10, 1/10, 1, 1/10⟩)
      = { attack := 1/100, decay := 42, sustain := 0, release := 1/100 }
    ∧ (MyNoiseGenerator.updateEnvParams 42
        (MyNoiseGenerator.initEnvParams ⟨1/10, 1/10, 1, 1/10⟩)).sustain
      = (MyNoiseGenerator.updateEnvParams 7
        (MyNoiseGenerator.initEnvParams ⟨1/10, 1/10, 1, 1/10⟩)).sustain := by
  constructor
  · simp [MyNoiseGenerator.updateEnvParams, MyNoiseGenerator.initEnvParams]
  · rfl

/-- C7 amended: the noise envelope fixes attack = 10 ms, release = 10 ms
and sustain = 0; the decay alone is parameter-driven, with the maximum
duration value 100 mapped to the very large decay 10000 that emulates
sustain-forever; updateEnvParams recomputes the decay from the current
duration parameter each time it runs. -/
theorem c7_noise_envelope_params (defaults envParams : AdsrParameters) (dur : ℚ) :
    (MyNoiseGenerator.initEnvParams defaults).attack = 1 / 100
    ∧ (MyNoiseGenerator.initEnvParams defaults).release = 1 / 100
    ∧ (MyNoiseGenerator.initEnvParams defaults).sustain = 0
    ∧ MyNoiseGenerator.updateEnvParams dur envParams
        = { envParams with decay := if dur = 100 then 10000 else dur }
    ∧ MyNoiseGenerator.updateEnvParams MyParameters.noiseDurationMax envParams
        = { envParams with decay := 10000 } := by
  refine ⟨rfl, rfl, rfl, rfl, ?_⟩
  simp [MyNoiseGenerator.updateEnvParams, MyParameters.noiseDurationMax]

/-- C3 counterexample: ping-pong delay with depth 0.5 applied to one stereo
sample with left input 1, right input 0 and dry level 1: the left channel
output is 1 while the right channel output is 0, so the two outputs are not
numerically identical. -/
theorem c3_counterexample :
    (MyPingPongDelay.apply ⟨true, 1, 1, 0, 1/2⟩ (fun _ => 1) 1 2
        (fun c _ => if c = 0 then 1 else 0) ⟨4, fun _ => 0, fun _ => 0, 0, false⟩).1 0 0
    ≠ (MyPingPongDelay.apply ⟨true, 1, 1, 0, 1/2⟩ (fun _ => 1) 1 2
        (fun c _ => if c = 0 then 1 else 0) ⟨4, fun _ => 0, fun _ => 0, 0, false⟩).1 1 0 := by
  norm_num [MyPingPongDelay.apply, MyPingPongDelay.processSamples, MyPingPongDelay.stepSample,
    MyPingPongDelay.getInterpolatedDelayedSample, MyDelay.incrementCurrentIndex, writeSample]

/-- C3 amended: with depth 0.5 the wet (delayed) contribution of the
ping-pong delay is identical on both channels, so the left and right
outputs of a processed stereo sample differ exactly by the dry term
dryLevel * (leftInput - rightInput); the outputs are identical precisely
when the dry contributions agree, for example for equal inputs or zero dry
level. -/
theorem c3_pingpong_depth_half_centered (dry wet feedback d : ℚ) (i : ℕ)
    (audio : ℕ → ℕ → ℚ) (st : DelayState) :
    (MyPingPongDelay.stepSample ⟨true, dry, wet, feedback, 1/2⟩ true d i audio st).1 0 i
      - (MyPingPongDelay.stepSample ⟨true, dry, wet, feedback, 1/2⟩ true d i audio st).1 1 i
      = dry * (audio 0 i - audio 1 i) := by
  simp [MyPingPongDelay.stepSample, writeSample]
  ring

/-- C2: when the delay is off, apply returns the audio buffer bit-identical
to its input; the buffers are zeroed and the write index reset exactly when
the empty-buffers flag is still down (the on-to-off transition), a repeated
off block leaves the state untouched, and switching on clears nothing: the
sample loop is entered with the previous buffers and write index, only the
empty flag is lowered. The same holds for the ping-pong delay. -/
theorem c2_delay_bypass_reset (dry wet feedback depth : ℚ) (delaySeq : ℕ → ℚ)
    (numSamples numChannels : ℕ) (audio : ℕ → ℕ → ℚ) (st : DelayState) :
    (MyDelay.apply ⟨false, dry, wet, feedback⟩ delaySeq numSamples numChannels audio st).1
        = audio
    ∧ MyDelay.apply ⟨false, dry, wet, feedback⟩ delaySeq numSamples numChannels audio
        { st with emptyBuffers := false }
        = (audio, ⟨st.bufferSize, fun _ => 0, fun _ => 0, 0, true⟩)
    ∧ MyDelay.apply ⟨false, dry, wet, feedback⟩ delaySeq numSamples numChannels audio
        { st with emptyBuffers := true }
        = (audio, { st with emptyBuffers := true })
    ∧ MyDelay.apply ⟨true, dry, wet, feedback⟩ delaySeq numSamples numChannels audio st
        = MyDelay.processSamples ⟨true, dry, wet, feedback⟩ (decide (1 < numChannels))
            delaySeq 0 numSamples audio { st with emptyBuffers := false }
    ∧ (MyPingPongDelay.apply ⟨false, dry, wet, feedback, depth⟩ delaySeq numSamples
          numChannels audio st).1 = audio
    ∧ MyPingPongDelay.apply ⟨false, dry, wet, feedback, depth⟩ delaySeq numSamples
          numChannels audio { st with emptyBuffers := false }
        = (audio, ⟨st.bufferSize, fun _ => 0, fun _ => 0, 0, true⟩)
    ∧ MyPingPongDelay.apply ⟨false, dry, wet, feedback, depth⟩ delaySeq numSamples
          numChannels audio { st with emptyBuffers := true }
        = (audio, { st with emptyBuffers := true })
    ∧ MyPingPongDelay.apply ⟨true, dry, wet, feedback, depth⟩ delaySeq numSamples
          numChannels audio st
        = MyPingPongDelay.processSamples ⟨true, dry, wet, feedback, depth⟩
            (decide (1 < numChannels)) delaySeq 0 numSamples audio
            { st with emptyBuffers := false } := by
  obtain ⟨bs, L, R, ci, eb⟩ := st
  refine ⟨?_, ?_, ?_, ?_, ?_, ?_, ?_, ?_⟩ <;>
    simp [MyDelay.apply, MyDelay.clearBuffers, MyPingPongDelay.apply,
      MyPingPongDelay.clearBuffers]

/-- C1: one on-state stereo sample of the channel-preserving delay: for each
channel independently, with smoothed delay distance d, integer part i =
floor d and fraction f = d - i, the delayed sample is read by linear
interpolation between the cell at readIndex = (writeIndex - i + capacity)
mod capacity and its left neighbour (readIndex - 1 + capacity) mod capacity;
the channel output is dryLevel * original + wetLevel * delayed; the buffer
cell at the write index becomes original + feedback * delayed; and the
shared write index advances exactly once, after both channels. -/
theorem c1_channel_preserving_delay_step (p : DelayParams) (d : ℚ) (i : ℕ)
    (audio : ℕ → ℕ → ℚ) (st : DelayState)
    (hSize : 0 < st.bufferSize)
    (hIdx0 : 0 ≤ st.currentIndex) (hIdx1 : st.currentIndex < st.bufferSize)
    (hFloor0 : 0 ≤ ⌊d⌋) (hFloor1 : ⌊d⌋ ≤ st.bufferSize) :
    MyDelay.stepSample p true d i audio st =
      (let f : ℚ := d - ((⌊d⌋ : ℤ) : ℚ)
       let readIndex : ℤ := (st.currentIndex - ⌊d⌋ + st.bufferSize) % st.bufferSize
       let neighborIndex : ℤ := (readIndex - 1 + st.bufferSize) % st.bufferSize
       let delayedL : ℚ := (1 - f) * st.leftBuffer neighborIndex + f * st.leftBuffer readIndex
       let delayedR : ℚ := (1 - f) * st.rightBuffer neighborIndex + f * st.rightBuffer readIndex
       ((fun c m =>
          if c = 0 ∧ m = i then p.delayDryLevel * audio 0 i + p.delayWetLevel * delayedL
          else if c = 1 ∧ m = i then p.delayDryLevel * audio 1 i + p.delayWetLevel * delayedR
          else audio c m),
        { bufferSize := st.bufferSize
          leftBuffer := fun j =>
            if j = st.currentIndex then audio 0 i + p.delayFeedback * delayedL
            else st.leftBuffer j
          rightBuffer := fun j =>
            if j = st.currentIndex then audio 1 i + p.delayFeedback * delayedR
            else st.rightBuffer j
          currentIndex := (st.currentIndex + 1) % st.bufferSize
          emptyBuffers := st.emptyBuffers })) := by
  obtain ⟨bs, L, R, ci, eb⟩ := st
  simp only at hSize hIdx0 hIdx1 hFloor0 hFloor1
  have h1 : ((ci - ⌊d⌋) + bs).tmod bs = (ci - ⌊d⌋ + bs) % bs :=
    Int.tmod_eq_emod (by omega) (by omega)
  have hr0 : 0 ≤ (ci - ⌊d⌋ + bs) % bs := Int.emod_nonneg _ (by omega)
  have h2 : ((ci - ⌊d⌋ + bs) % bs - 1 + bs).tmod bs = ((ci - ⌊d⌋ + bs) % bs - 1 + bs) % bs :=
    Int.tmod_eq_emod (by omega) (by omega)
  have h3 : (ci + 1).tmod bs = (ci + 1) % bs :=
    Int.tmod_eq_emod (by omega) (by omega)
  simp only [MyDelay.stepSample, MyDelay.applyDelay, MyDelay.incrementCurrentIndex,
    writeSample, if_true]
  rw [h1, h2, h3]
  congr 1
  funext c m
  simp only [writeSample]
  split_ifs <;> first | rfl | omega

/-- Witness for C1 at a concrete input: delay distance 3/2 on a buffer of
size 4 with write index 2; the hypotheses hold and the write index after the
step is 3. -/
theorem c1_witness :
    (0 : ℤ) ≤ ⌊(3/2 : ℚ)⌋ ∧ ⌊(3/2 : ℚ)⌋ ≤ 4
    ∧ (MyDelay.stepSample ⟨true, 1, 1, 1⟩ true (3/2) 0 (fun (c m : ℕ) => (c : ℚ) + (m : ℚ))
        ⟨4, (fun j => (j : ℚ)), (fun j => 2 * (j : ℚ)), 2, false⟩).2.currentIndex = 3 := by
  have hf : ⌊(3/2 : ℚ)⌋ = 1 := by
    rw [Int.floor_eq_iff]
    norm_num
  refine ⟨by rw [hf] ; norm_num, by rw [hf] ; norm_num, ?_⟩
  rw [c1_channel_preserving_delay_step ⟨true, 1, 1, 1⟩ (3/2) 0 (fun (c m : ℕ) => (c : ℚ) + (m : ℚ))
    ⟨4, (fun j => (j : ℚ)), (fun j => 2 * (j : ℚ)), 2, false⟩ (by norm_num) (by norm_num)
    (by norm_num) (by rw [hf] ; norm_num) (by rw [hf] ; norm_num)]
  norm_num

/-- C5: for every state, the waveform sample produced before depth scaling,
evaluated at the advanced phase, is sin(2 pi phase) for the sine,
4 * |phase - 0.5| - 1 for the triangle, -1 below phase 0.5 and +1 from
0.5 up for the square, 2 * phase - 1 for the rising sawtooth and its
negation for the falling sawtooth; getNextSample returns the depth times
the waveform, the depth parameter being declared over [0, 1]. -/
theorem c5_lfo_waveforms (enabled : Bool) (selector : ℤ) (freq depth : ℝ) (st : LfoState) :
    (MyLfo.getNextSample ⟨enabled, 0, selector, freq, depth⟩ st).1
        = depth * Real.sin (2 * Real.pi * (MyLfo.getNextPhase st).1)
    ∧ (MyLfo.getNextSample ⟨enabled, 1, selector, freq, depth⟩ st).1
        = depth * (4 * |(MyLfo.getNextPhase st).1 - 0.5| - 1)
    ∧ (MyLfo.getNextSample ⟨enabled, 2, selector, freq, depth⟩ st).1
        = depth * (if (MyLfo.getNextPhase st).1 < 0.5 then (-1 : ℝ) else 1)
    ∧ (MyLfo.getNextSample ⟨enabled, 3, selector, freq, depth⟩ st).1
        = depth * (2 * (MyLfo.getNextPhase st).1 - 1)
    ∧ (MyLfo.getNextSample ⟨enabled, 4, selector, freq, depth⟩ st).1
        = depth * (-(2 * (MyLfo.getNextPhase st).1 - 1))
    ∧ MyParameters.lfoDepthRange = (0, 1) := by
  refine ⟨?_, ?_, ?_, ?_, ?_, rfl⟩ <;>
    simp only [MyLfo.getNextSample, MyLfo.getNextSampleSine, MyLfo.getNextSampleTriangle,
      MyLfo.getNextSampleSquare, MyLfo.getNextSampleSaw, MyLfo.getNextSampleInvertedSaw,
      MyLfo.pi2, show ((0 : ℤ) = 0) = True by simp, show ((1 : ℤ) = 0) = False by simp,
      show ((2 : ℤ) = 0) = False by simp, show ((3 : ℤ) = 0) = False by simp,
      show ((4 : ℤ) = 0) = False by simp, show ((1 : ℤ) = 1) = True by simp,
      show ((2 : ℤ) = 1) = False by simp, show ((3 : ℤ) = 1) = False by simp,
      show ((4 : ℤ) = 1) = False by simp, show ((2 : ℤ) = 2) = True by simp,
      show ((3 : ℤ) = 2) = False by simp, show ((4 : ℤ) = 2) = False by simp,
      show ((3 : ℤ) = 3) = True by simp, show ((4 : ℤ) = 3) = False by simp,
      show ((4 : ℤ) = 4) = True by simp, if_true, if_false] <;>
    first
    | rfl
    | ring

/-- C8 amended: in the voice render loop, the playing and ending flags drop
at exactly the sample where the note is ending and the amp envelope has
closed (the voice is cleared and handed back to the pool), the cached amp
state advances, and the processed sample is added to the output buffer at
every channel below the channel count whether or not the voice was cleared
at that sample - the loop is not cut short, so the remaining samples of the
block are still rendered; a voice that is not playing at a block boundary
renders nothing for the whole block. -/
theorem c8_release_transition (E : Type) (adsrNext : E → ℚ × E) (tanhFn : ℚ → ℚ)
    (p : AmpParams) (routeVolume routeDist : Bool) (lfoSeq filteredSeq : ℕ → ℚ)
    (numChannels i startSample numSamples : ℕ) (st : VoiceState E) (audio : ℕ → ℕ → ℚ) :
    (MySynthVoice.renderStep adsrNext tanhFn p routeVolume routeDist lfoSeq filteredSeq
        numChannels i st audio).1.playing
      = (st.playing && !(st.ending && MyAmp.isClosed
          (MyAmp.apply adsrNext tanhFn p (filteredSeq i) routeVolume routeDist
            (lfoSeq i) st.amp).2))
    ∧ (MySynthVoice.renderStep adsrNext tanhFn p routeVolume routeDist lfoSeq filteredSeq
        numChannels i st audio).1.ending
      = (st.ending && !(st.ending && MyAmp.isClosed
          (MyAmp.apply adsrNext tanhFn p (filteredSeq i) routeVolume routeDist
            (lfoSeq i) st.amp).2))
    ∧ (MySynthVoice.renderStep adsrNext tanhFn p routeVolume routeDist lfoSeq filteredSeq
        numChannels i st audio).1.amp
      = (MyAmp.apply adsrNext tanhFn p (filteredSeq i) routeVolume routeDist
          (lfoSeq i) st.amp).2
    ∧ (MySynthVoice.renderStep adsrNext tanhFn p routeVolume routeDist lfoSeq filteredSeq
        numChannels i st audio).2
      = (fun c m =>
          if c < numChannels ∧ m = i then
            audio c m + (MyAmp.apply adsrNext tanhFn p (filteredSeq i) routeVolume routeDist
              (lfoSeq i) st.amp).1
          else audio c m)
    ∧ (∀ st2 : VoiceState E, st2.playing = false →
        MySynthVoice.renderBlock adsrNext tanhFn p routeVolume routeDist lfoSeq filteredSeq
          numChannels startSample numSamples st2 audio = (st2, audio)) := by
  cases h : (st.ending && MyAmp.isClosed
      (MyAmp.apply adsrNext tanhFn p (filteredSeq i) routeVolume routeDist
        (lfoSeq i) st.amp).2) <;>
    refine ⟨?_, ?_, ?_, ?_, ?_⟩ <;>
    first
    | (intro st2 h2
       simp [MySynthVoice.renderBlock, h2])
    | simp [MySynthVoice.renderStep, h]

/-- C8 counterexample: a releasing voice (ending true) whose envelope value
stays at 1/2000000, below the 0.000001 closing threshold, over a block of
two samples: the voice is cleared at sample 0, yet sample 1 of the same
block is still rendered and adds the nonzero value 1/2000000 to the output
buffer, so the remaining samples of the block are not silent. -/
theorem c8_counterexample :
    (MySynthVoice.renderBlock (fun n : ℕ => ((1/2000000 : ℚ), n + 1)) id ⟨false, 1, 1⟩
        false false (fun _ => 0) (fun _ => 1) 1 0 2 ⟨true, true, ⟨0, 1, 1⟩⟩
        (fun _ _ => 0)).1.playing = false
    ∧ (MySynthVoice.renderBlock (fun n : ℕ => ((1/2000000 : ℚ), n + 1)) id ⟨false, 1, 1⟩
        false false (fun _ => 0) (fun _ => 1) 1 0 2 ⟨true, true, ⟨0, 1, 1⟩⟩
        (fun _ _ => 0)).2 0 1 ≠ 0 := by
  constructor <;>
    norm_num [MySynthVoice.renderBlock, MySynthVoice.renderLoop, MySynthVoice.renderStep,
      MyAmp.apply, MyAmp.isClosed, MyAmp.getAmpVolume]

/-- Witness for C8 at a concrete non-playing voice: the hypothesis of the
block-identity part holds and a four-sample block render returns the state
and buffer unchanged. -/
theorem c8_witness :
    ((⟨false, true, ⟨0, 1, 1⟩⟩ : VoiceState ℕ).playing = false)
    ∧ MySynthVoice.renderBlock (fun n : ℕ => ((0 : ℚ), n)) id ⟨false, 1, 1⟩ false false
        (fun _ => 0) (fun _ => 0) 2 0 4 (⟨false, true, ⟨0, 1, 1⟩⟩ : VoiceState ℕ)
        (fun _ _ => 0)
      = (⟨false, true, ⟨0, 1, 1⟩⟩, (fun _ _ => 0)) :=
  ⟨rfl,
    (c8_release_transition ℕ (fun n => ((0 : ℚ), n)) id ⟨false, 1, 1⟩ false false
      (fun _ => 0) (fun _ => 0) 2 0 0 4 ⟨false, true, ⟨0, 1, 1⟩⟩
      (fun _ _ => 0)).2.2.2.2 ⟨false, true, ⟨0, 1, 1⟩⟩ rfl⟩

/-- Channels with index 2 and above are never touched by one sample step of
the channel-preserving delay. -/
theorem delay_stepSample_high_channel (p : DelayParams) (rca : Bool) (d : ℚ)
    (i : ℕ) (audio : ℕ → ℕ → ℚ) (st : DelayState) (c : ℕ) (hc : 2 ≤ c) :
    (MyDelay.stepSample p rca d i audio st).1 c = audio c := by
  have h0 : ¬ (c = 0) := by omega
  have h1 : ¬ (c = 1) := by omega
  funext m
  cases rca <;> simp [MyDelay.stepSample, writeSample, h0, h1]

/-- Channels with index 2 and above are never touched by the sample loop of
the channel-preserving delay. -/
theorem delay_processSamples_high_channel (p : DelayParams) (rca : Bool)
    (delaySeq : ℕ → ℚ) :
    ∀ (n i : ℕ) (audio : ℕ → ℕ → ℚ) (st : DelayState) (c : ℕ), 2 ≤ c →
      (MyDelay.processSamples p rca delaySeq i n audio st).1 c = audio c := by
  intro n
  induction n with
  | zero => intro i audio st c hc; rfl
  | succ r ih =>
    intro i audio st c hc
    have hs := delay_stepSample_high_channel p rca (delaySeq i) i audio st c hc
    simp only [MyDelay.processSamples]
    rw [ih (i + 1) _ _ c hc, hs]

/-- Channels with index 2 and above are never touched by one sample step of
the ping-pong delay. -/
theorem pingpong_stepSample_high_channel (p : PingPongParams) (rca : Bool)
    (d : ℚ) (i : ℕ) (audio : ℕ → ℕ → ℚ) (st : DelayState) (c : ℕ) (hc : 2 ≤ c) :
    (MyPingPongDelay.stepSample p rca d i audio st).1 c = audio c := by
  have h0 : ¬ (c = 0) := by omega
  have h1 : ¬ (c = 1) := by omega
  funext m
  cases rca <;> simp [MyPingPongDelay.stepSample, writeSample, h0, h1]

/-- Channels with index 2 and above are never touched by the sample loop of
the ping-pong delay. -/
theorem pingpong_processSamples_high_channel (p : PingPongParams) (rca : Bool)
    (delaySeq : ℕ → ℚ) :
    ∀ (n i : ℕ) (audio : ℕ → ℕ → ℚ) (st : DelayState) (c : ℕ), 2 ≤ c →
      (MyPingPongDelay.processSamples p rca delaySeq i n audio st).1 c = audio c := by
  intro n
  induction n with
  | zero => intro i audio st c hc; rfl
  | succ r ih =>
    intro i audio st c hc
    have hs := pingpong_stepSample_high_channel p rca (delaySeq i) i audio st c hc
    simp only [MyPingPongDelay.processSamples]
    rw [ih (i + 1) _ _ c hc, hs]

/-- C9 amended: the delay engines process only the first two channels, so
for every block and both delay variants the channels with index 2 and above
come out bit-identical to their input; the voice renderer, however, adds
its mono sample to every channel below the channel count - including the
channels with index 2 and above when more than two are present - and
touches no channel at or above the channel count. -/
theorem c9_extra_channels :
    (∀ (p : DelayParams) (delaySeq : ℕ → ℚ) (nS nC : ℕ) (audio : ℕ → ℕ → ℚ)
        (st : DelayState) (c : ℕ), 2 ≤ c →
        (MyDelay.apply p delaySeq nS nC audio st).1 c = audio c)
    ∧ (∀ (p : PingPongParams) (delaySeq : ℕ → ℚ) (nS nC : ℕ) (audio : ℕ → ℕ → ℚ)
        (st : DelayState) (c : ℕ), 2 ≤ c →
        (MyPingPongDelay.apply p delaySeq nS nC audio st).1 c = audio c)
    ∧ (∀ (E : Type) (adsrNext : E → ℚ × E) (tanhFn : ℚ → ℚ) (p : AmpParams)
        (routeVolume routeDist : Bool) (lfoSeq filteredSeq : ℕ → ℚ) (nC i : ℕ)
        (st : VoiceState E) (audio : ℕ → ℕ → ℚ) (c : ℕ), c < nC →
        (MySynthVoice.renderStep adsrNext tanhFn p routeVolume routeDist lfoSeq filteredSeq
            nC i st audio).2 c i
          = audio c i + (MyAmp.apply adsrNext tanhFn p (filteredSeq i) routeVolume routeDist
              (lfoSeq i) st.amp).1)
    ∧ (∀ (E : Type) (adsrNext : E → ℚ × E) (tanhFn : ℚ → ℚ) (p : AmpParams)
        (routeVolume routeDist : Bool) (lfoSeq filteredSeq : ℕ → ℚ) (nC i : ℕ)
        (st : VoiceState E) (audio : ℕ → ℕ → ℚ) (c : ℕ), nC ≤ c →
        (MySynthVoice.renderStep adsrNext tanhFn p routeVolume routeDist lfoSeq filteredSeq
            nC i st audio).2 c = audio c) := by
  refine ⟨?_, ?_, ?_, ?_⟩
  · intro p delaySeq nS nC audio st c hc
    cases hOn : p.delayOn <;>
      simp [MyDelay.apply, hOn, delay_processSamples_high_channel p _ delaySeq nS 0 audio _ c hc]
  · intro p delaySeq nS nC audio st c hc
    cases hOn : p.delayOn <;>
      simp [MyPingPongDelay.apply, hOn,
        pingpong_processSamples_high_channel p _ delaySeq nS 0 audio _ c hc]
  · intro E adsrNext tanhFn p routeVolume routeDist lfoSeq filteredSeq nC i st audio c hc
    cases hcond : ((⟨st.playing, st.ending, (MyAmp.apply adsrNext tanhFn p (filteredSeq i)
        routeVolume routeDist (lfoSeq i) st.amp).2⟩ : VoiceState E).ending
          && MyAmp.isClosed (MyAmp.apply adsrNext tanhFn p (filteredSeq i) routeVolume
            routeDist (lfoSeq i) st.amp).2) <;>
      simp [MySynthVoice.renderStep, hcond, hc]
  · intro E adsrNext tanhFn p routeVolume routeDist lfoSeq filteredSeq nC i st audio c hc
    have hlt : ¬ (c < nC) := by omega
    funext m
    cases hcond : ((⟨st.playing, st.ending, (MyAmp.apply adsrNext tanhFn p (filteredSeq i)
        routeVolume routeDist (lfoSeq i) st.amp).2⟩ : VoiceState E).ending
          && MyAmp.isClosed (MyAmp.apply adsrNext tanhFn p (filteredSeq i) routeVolume
            routeDist (lfoSeq i) st.amp).2) <;>
      simp [MySynthVoice.renderStep, hcond, hlt]

/-- C9 counterexample: a playing voice rendered into a three-channel buffer
writes its sample to channel 2 as well: the third channel is not left
unchanged by the block render. -/
theorem c9_counterexample :
    (MySynthVoice.renderBlock (fun n : ℕ => ((1 : ℚ), n)) id ⟨false, 1, 1⟩ false false
        (fun _ => 0) (fun _ => 1) 3 0 1 ⟨true, false, ⟨0, 1, 0⟩⟩
        (fun _ _ => 0)).2 2 0 ≠ 0 := by
  norm_num [MySynthVoice.renderBlock, MySynthVoice.renderLoop, MySynthVoice.renderStep,
    MyAmp.apply, MyAmp.isClosed, MyAmp.getAmpVolume]

/-- Witness for C9 at concrete inputs: channel 2 of a three-channel buffer
is untouched by both delay engines, receives the voice sample from the
renderer, and channel 3 is untouched by the renderer when the channel count
is 3. -/
theorem c9_witness :
    ((2 : ℕ) ≤ 2
      ∧ (MyDelay.apply ⟨true, 1, 1, 1⟩ (fun _ => 1) 1 3 (fun (c m : ℕ) => (c : ℚ) + (m : ℚ))
          ⟨2, fun _ => 0, fun _ => 0, 0, false⟩).1 2 = (fun (c m : ℕ) => (c : ℚ) + (m : ℚ)) 2)
    ∧ ((2 : ℕ) ≤ 2
      ∧ (MyPingPongDelay.apply ⟨true, 1, 1, 1, 1⟩ (fun _ => 1) 1 3 (fun (c m : ℕ) => (c : ℚ) + (m : ℚ))
          ⟨2, fun _ => 0, fun _ => 0, 0, false⟩).1 2 = (fun (c m : ℕ) => (c : ℚ) + (m : ℚ)) 2)
    ∧ ((2 : ℕ) < 3
      ∧ (MySynthVoice.renderStep (fun n : ℕ => ((1 : ℚ), n)) id ⟨false, 1, 1⟩ false false
          (fun _ => 0) (fun _ => 1) 3 0 ⟨true, false, ⟨0, 1, 0⟩⟩ (fun _ _ => 0)).2 2 0
        = (fun _ _ => (0 : ℚ)) 2 0
            + (MyAmp.apply (fun n : ℕ => ((1 : ℚ), n)) id ⟨false, 1, 1⟩
                ((fun _ => (1 : ℚ)) 0) false false ((fun _ => (0 : ℚ)) 0)
                (⟨true, false, ⟨0, 1, 0⟩⟩ : VoiceState ℕ).amp).1)
    ∧ ((3 : ℕ) ≤ 3
      ∧ (MySynthVoice.renderStep (fun n : ℕ => ((1 : ℚ), n)) id ⟨false, 1, 1⟩ false false
          (fun _ => 0) (fun _ => 1) 3 0 ⟨true, false, ⟨0, 1, 0⟩⟩ (fun _ _ => 0)).2 3
        = (fun _ _ => (0 : ℚ)) 3) := by
  refine ⟨⟨le_rfl, ?_⟩, ⟨le_rfl, ?_⟩, ⟨by norm_num, ?_⟩, ⟨le_rfl, ?_⟩⟩
  · exact c9_extra_channels.1 _ _ _ _ _ _ _ le_rfl
  · exact c9_extra_channels.2.1 _ _ _ _ _ _ _ le_rfl
  · exact c9_extra_channels.2.2.1 _ _ _ _ _ _ _ _ _ _ _ _ _ (by norm_num)
  · exact c9_extra_channels.2.2.2 _ _ _ _ _ _ _ _ _ _ _ _ _ le_rfl
